import Mathlib

/-!
Verification development for the go-alert error-alerting facade
(package `alert`, files `v1/alert.go` and `v1/option.go`).

The development shallowly embeds the package's data model and operations:

* Go errors are modelled by the inductive `GoErr`.  An error value carries
  the result of its `Error()` method (`msg`), the name of its concrete type
  as produced by `reflect.TypeOf(err).String()` (`typeName`), and the three
  optional capabilities the package probes for: `Title() string`,
  `Frames() []debug.Frame` and `Unwrap() error` / `Cause() error`.
  The `Unwrap`/`Cause` capabilities are modelled by `ErrLink`: a type either
  does not implement the method (`absent`), implements it and returns a nil
  error (`toNil`), or implements it and returns another error (`toErr`).
  A nil Go error interface value is modelled as `Option.none`.

* The external collaborators are opaque, exactly as the specification
  treats them: `sentry.ExtractStacktrace` is an arbitrary function
  parameter `sx : GoErr → Option Stacktrace`, `errutil.Refstr` is an
  arbitrary parameter `rf : GoErr → String`, and `fmt.Errorf` is an
  arbitrary parameter of type `String → List Val → GoErr`.

* Go maps (`alert.Tags`, the extra map, the sentry scope's tag map) are
  modelled as association lists; Go guarantees map keys are unique, which
  theorems state as a `Nodup` hypothesis where it matters.  Writing to the
  sentry scope's tag map (`Scope.SetTag`) replaces the entry for an
  existing key (`scopeSet`).

* Run-time panics (a method call on a nil error interface, and the
  `panic` calls in `Init`) are modelled with `Except`/`Option` results.
-/

namespace GoAlert

/-- Arbitrary Go values (`interface\x7b\x7d`), as used for tag and extra-map
values.  `sprint` models `fmt.Sprint` on such a value. -/
inductive Val where
  | vstr : String → Val
  | vint : Int → Val
deriving DecidableEq

/-- Model of `fmt.Sprint` applied to a single tag value. -/
def sprint : Val → String
  | .vstr s => s
  | .vint n => toString n

/-- Model of `debug.Frame` (package `github.com/bww/go-util/v1/debug`):
a structured source location with line, file, absolute path and name. -/
structure Frame where
  line : Int
  file : String
  path : String
  name : String
deriving DecidableEq

/-- Model of `sentry.Frame`, restricted to the four fields the package
fills in (`Lineno`, `Filename`, `AbsPath`, `Function`). -/
structure SFrame where
  lineno : Int
  filename : String
  absPath : String
  function : String
deriving DecidableEq

/-- Model of `sentry.Stacktrace`: an ordered list of frames. -/
structure Stacktrace where
  frames : List SFrame
deriving DecidableEq

mutual
/-- A Go error value, as observed by package `alert`:
`msg` is the result of `Error()`, `typeName` the result of
`reflect.TypeOf(err).String()`, `titleF` the optional `Title() string`
capability, `framesF` the optional `Frames() []debug.Frame` capability,
and `unwrapF`/`causeF` the optional `Unwrap() error`/`Cause() error`
capabilities. -/
inductive GoErr where
  | mk : (msg : String) → (typeName : String) → (titleF : Option String) →
         (framesF : Option (List Frame)) → (unwrapF : ErrLink) →
         (causeF : ErrLink) → GoErr

/-- Result of probing an error for an `Unwrap() error` or `Cause() error`
capability: the method is not implemented, or it is implemented and
returns nil, or it is implemented and returns another error. -/
inductive ErrLink where
  | absent : ErrLink
  | toNil : ErrLink
  | toErr : GoErr → ErrLink
end

/-- The `Error()` result of an error. -/
def GoErr.msg : GoErr → String
  | .mk m _ _ _ _ _ => m

/-- The `reflect.TypeOf(err).String()` result of an error. -/
def GoErr.typeName : GoErr → String
  | .mk _ t _ _ _ _ => t

/-- The optional `Title() string` capability of an error. -/
def GoErr.titleF : GoErr → Option String
  | .mk _ _ ti _ _ _ => ti

/-- The optional `Frames() []debug.Frame` capability of an error. -/
def GoErr.framesF : GoErr → Option (List Frame)
  | .mk _ _ _ fr _ _ => fr

/-- The optional `Unwrap() error` capability of an error. -/
def GoErr.unwrapF : GoErr → ErrLink
  | .mk _ _ _ _ u _ => u

/-- The optional `Cause() error` capability of an error. -/
def GoErr.causeF : GoErr → ErrLink
  | .mk _ _ _ _ _ c => c

/-- Source constant `maxErrorDepth = 3` (`v1/alert.go`). -/
def maxErrorDepth : Nat := 3

/-- Model of `sentry.Exception`, restricted to the fields the package
fills in (`Value`, `Type`, `Stacktrace`). -/
structure Exception where
  value : String
  typ : String
  stacktrace : Option Stacktrace
deriving DecidableEq

/-- Model of the sentry severity levels. -/
inductive Level where
  | debug | info | warning | error | fatal
deriving DecidableEq

/-- Model of `sentry.Event`, restricted to the fields `eventFromError`
assigns: `Level`, `Message` (a Go string, empty when never assigned),
`Extra` and `Exception`. -/
structure Event where
  level : Level
  message : String
  extra : List (String × Val)
  exception : List Exception
deriving DecidableEq

/-- Embedding of `convertStacktrace` (`v1/alert.go`): the Go loop writes
the conversion of source frame `i` into output slot `len(frames)-i-1`,
which is exactly the reverse of the frame-wise converted list. -/
def convertStacktrace (frames : List Frame) : Stacktrace :=
  { frames := (frames.map (fun e =>
      { lineno := e.line, filename := e.file,
        absPath := e.path, function := e.name })).reverse }

/-- Embedding of `maybeUnwrap` (`v1/alert.go`): if the error implements
`Unwrap() error`, return its result (which may be nil); otherwise return
the error itself. -/
def maybeUnwrap (e : GoErr) : Option GoErr :=
  match e.unwrapF with
  | .toErr u => some u
  | .toNil => none
  | .absent => some e

/-- Embedding of `extractStacktrace` (`v1/alert.go`): if the error
implements `Frames() []debug.Frame`, convert those frames and advance by
`maybeUnwrap`; otherwise keep the error and delegate to sentry's own
generic extraction facility `sx`. -/
def extractStacktrace (sx : GoErr → Option Stacktrace) (e : GoErr) :
    Option GoErr × Option Stacktrace :=
  match e.framesF with
  | some fs => (maybeUnwrap e, some (convertStacktrace fs))
  | none => (some e, sx e)

/-- Embedding of the `switch prev := err.(type)` advancement at the end of
each `eventFromError` loop iteration: prefer `Unwrap() error`, then
`Cause() error`, else terminate with nil. -/
def nextErr (e : GoErr) : Option GoErr :=
  match e.unwrapF with
  | .toErr u => some u
  | .toNil => none
  | .absent =>
    match e.causeF with
    | .toErr c => some c
    | .toNil => none
    | .absent => none

/-- Embedding of the unwinding loop of `eventFromError` (`v1/alert.go`).
The fuel argument models the loop counter bound `i < maxErrorDepth`; the
accumulator models `event.Exception` being appended to.  Each iteration
reassigns `err` to the first component of `extractStacktrace` before
building the `sentry.Exception` literal, so the exception's `Value` and
`Type` are taken from that reassigned error; when `extractStacktrace`
returns a nil error (an error implementing both `Frames` and an `Unwrap`
returning nil), the Go code calls `err.Error()` on a nil interface and
panics, modelled as `Except.error`. -/
def unwindLoop (sx : GoErr → Option Stacktrace) :
    Nat → Option GoErr → List Exception → Except String (List Exception)
  | 0, _, acc => .ok acc
  | Nat.succ _, none, acc => .ok acc
  | Nat.succ n, some e, acc =>
    match extractStacktrace sx e with
    | (none, _) => .error "runtime error: invalid memory address or nil pointer dereference"
    | (some e2, stack) =>
      unwindLoop sx n (nextErr e2)
        (acc ++ [{ value := e2.msg, typ := e2.typeName, stacktrace := stack }])

/-- Embedding of `Alerter.eventFromError` (`v1/alert.go`): build an event
at the given level with the extra map as payload, set `Message` from the
`Title() string` capability when present, run the unwinding loop up to
`maxErrorDepth`, and reverse the accumulated exception list in place
(the Go helper `reverse` is the in-place swap formulation of
`List.reverse`). -/
def eventFromError (sx : GoErr → Option Stacktrace) (err : GoErr)
    (lvl : Level) (extra : List (String × Val)) : Except String Event :=
  let message := match err.titleF with
    | some t => t
    | none => ""
  match unwindLoop sx maxErrorDepth (some err) [] with
  | .error p => .error p
  | .ok excs =>
    .ok { level := lvl, message := message, extra := extra,
          exception := excs.reverse }

/-- Embedding of `Alerter.captureError` (`v1/alert.go`): the event is
built at the fixed severity `sentry.LevelError` and handed to the hub. -/
def captureError (sx : GoErr → Option Stacktrace) (err : GoErr)
    (extra : List (String × Val)) : Except String Event :=
  eventFromError sx err Level.error extra

/-- Model of `router.Request` restricted to what the package reads from
it: the method, the rendered URL (`req.URL.String()`), and the result of
`req.OriginAddr()`. -/
structure Request where
  method : String
  url : String
  originAddr : String
deriving DecidableEq

/-- Model of `sentry.User` restricted to the one field the package sets. -/
structure User where
  ipAddress : String
deriving DecidableEq

/-- Embedding of `Context` (`v1/option.go`).  The zero value (Go's zero
`Context`: nil request, nil maps) is the default instance. -/
structure Context where
  request : Option Request := none
  tags : List (String × Val) := []
  extra : List (String × Val) := []
deriving DecidableEq

/-- Embedding of the functional-option type `Option func(c Context)
Context` (`v1/option.go`); renamed `Opt` because `Option` is taken in
Lean. -/
def Opt : Type := Context → Context

/-- Embedding of `WithRequest` (`v1/option.go`). -/
def WithRequest (req : Request) : Opt :=
  fun c => { c with request := some req }

/-- Embedding of `WithTags` (`v1/option.go`). -/
def WithTags (tags : List (String × Val)) : Opt :=
  fun c => { c with tags := tags }

/-- Embedding of `WithExtra` (`v1/option.go`). -/
def WithExtra (extra : List (String × Val)) : Opt :=
  fun c => { c with extra := extra }

/-- The option fold performed at the top of `Alerter.Error`:
`var cxt Context; for _, o := range opts \x7b cxt = o(cxt) \x7d`. -/
def applyOpts (opts : List Opt) : Context :=
  opts.foldl (fun c o => o c) {}

/-- Assignment into the sentry scope's tag map (`Scope.SetTag`): replace
the entry for an existing key, otherwise add a new entry. -/
def scopeSet : List (String × String) → String → String → List (String × String)
  | [], k, v => [(k, v)]
  | (k', v') :: r, k, v =>
    if k' = k then (k, v) :: r else (k', v') :: scopeSet r k v

/-- Lookup in the sentry scope's tag map. -/
def scopeGet : List (String × String) → String → Option String
  | [], _ => none
  | (k', v') :: r, k => if k' = k then some v' else scopeGet r k

/-- Model of a sentry `Scope`, restricted to the state the package
mutates: the tag map, the attached request and the user identity. -/
structure Scope where
  tags : List (String × String) := []
  request : Option Request := none
  user : Option User := none
deriving DecidableEq

/-- `Scope.SetTag`. -/
def setTag (s : Scope) (k v : String) : Scope :=
  { s with tags := scopeSet s.tags k v }

/-- Embedding of `Config` (`v1/alert.go`).  The sentry client handle is
modelled by its presence; the logger handle is modelled by the base field
set it carries (`slog.Logger.With` accumulates fields on the handle). -/
structure Config where
  sentry : Bool
  logger : Option (List (String × Val))
  channel : String
  component : String
  hostname : String
  verbose : Bool
deriving DecidableEq

/-- Embedding of `Alerter` (`v1/alert.go`). -/
structure Alerter where
  sentry : Bool
  log : Option (List (String × Val))
  channel : String
  component : String
  hostname : String
  verbose : Bool
deriving DecidableEq

/-- Embedding of `New` (`v1/alert.go`).  The function can only return a
freshly allocated Alerter and a nil error; the non-empty component and
hostname are attached to the logger handle's field set here.  (The tags
`New` sets on the bound global sentry scope are reconstructed per call by
`hubScope` below, from the same `Alerter` fields.) -/
def New (conf : Config) : Option Alerter × Option String :=
  let log := match conf.logger with
    | some l =>
      let l := if conf.component ≠ "" then l ++ [("component", Val.vstr conf.component)] else l
      let l := if conf.hostname ≠ "" then l ++ [("host", Val.vstr conf.hostname)] else l
      some l
    | none => none
  (some { sentry := conf.sentry, log := log, channel := conf.channel,
          component := conf.component, hostname := conf.hostname,
          verbose := conf.verbose }, none)

/-- The state of the process-wide hub scope established by `New` on the
bound client, which `sentry.CurrentHub().Clone()` copies at the top of
`Alerter.Error`: the `component` and `host` tags when non-empty. -/
def hubScope (a : Alerter) : Scope :=
  let s : Scope := {}
  let s := if a.component ≠ "" then setTag s "component" a.component else s
  if a.hostname ≠ "" then setTag s "host" a.hostname else s

/-- The scope updates performed by the `len(tags) > 0` branch of
`Alerter.Error`: set every context tag, stringified, then set the `ref`
tag when the reference string is non-empty. -/
def scopeWithTags (ref : String) (ts : List (String × Val)) (s : Scope) : Scope :=
  let s := ts.foldl (fun s kv => setTag s kv.1 (sprint kv.2)) s
  if ref ≠ "" then setTag s "ref" ref else s

/-- The per-call scope state of `Alerter.Error` after all branches ran,
as a function of the reference string and the composed context.  The Go
method interleaves scope and logger updates branch by branch; the two
touch disjoint state, so scope evolution is collected here and logger
evolution in `logAfter`, in the same branch order as the source. -/
def scopeAfter (a : Alerter) (ref : String) (cxt : Context) : Scope :=
  let s := hubScope a
  let s := match cxt.request with
    | some req => { s with request := some req, user := some { ipAddress := req.originAddr } }
    | none => s
  if cxt.tags.length > 0 then scopeWithTags ref cxt.tags s else s

/-- The initial per-call logger view of `Alerter.Error`: it exists
exactly when verbose logging is enabled and a logger is configured, and
starts from the handle's base fields plus `alert=error` plus the
reference string when non-empty. -/
def logStart (a : Alerter) (ref : String) : Option (List (String × Val)) :=
  match a.log with
  | some base =>
    if a.verbose then
      let l := base ++ [("alert", Val.vstr "error")]
      some (if ref ≠ "" then l ++ [("ref", Val.vstr ref)] else l)
    else none
  | none => none

/-- The logger-view update of the `cxt.Request != nil` branch of
`Alerter.Error`: add `alert=error` again and a `request` field rendering
method and URL. -/
def logWithRequest (cxt : Context) (log : Option (List (String × Val))) :
    Option (List (String × Val)) :=
  match cxt.request with
  | some req => log.map (fun l =>
      l ++ [("alert", Val.vstr "error"),
            ("request", Val.vstr (req.method ++ " " ++ req.url))])
  | none => log

/-- The logger-view update of the `len(tags) > 0` branch of
`Alerter.Error`: add every tag, with its original value, as a field. -/
def logWithTags (cxt : Context) (log : Option (List (String × Val))) :
    Option (List (String × Val)) :=
  if cxt.tags.length > 0 then log.map (fun l => l ++ cxt.tags) else log

/-- The logger-view update of the `len(extra) > 0` branch of
`Alerter.Error`: add every extra entry as a field. -/
def logWithExtra (cxt : Context) (log : Option (List (String × Val))) :
    Option (List (String × Val)) :=
  if cxt.extra.length > 0 then log.map (fun l => l ++ cxt.extra) else log

/-- The per-call logger view of `Alerter.Error` after all branches ran
(`none` when no view is created), the stages in source order. -/
def logAfter (a : Alerter) (ref : String) (cxt : Context) :
    Option (List (String × Val)) :=
  logWithExtra cxt (logWithTags cxt (logWithRequest cxt (logStart a ref)))

/-- The externally observable outcome of one `Alerter.Error` call: the
event submitted through the per-call hub (if any), the final per-call
scope state, the per-call logger view's fields (if a view was created),
and the message of the emitted error-level log line (if one was). -/
structure ErrorOutcome where
  captured : Option Event
  scope : Option Scope
  logFields : Option (List (String × Val))
  logged : Option String
deriving DecidableEq

/-- Embedding of `Alerter.Error` (`v1/alert.go`).  `sx` stands for
`sentry.ExtractStacktrace` and `rf` for `errutil.Refstr`, both external.
A per-call hub clone exists exactly when a sentry client is configured; a
per-call logger view exists exactly when verbose logging is enabled and a
logger is configured.  The panic arising inside `eventFromError` (see
`unwindLoop`) propagates to the caller as the `Except.error` case. -/
def alerterError (a : Alerter) (sx : GoErr → Option Stacktrace)
    (rf : GoErr → String) (err : GoErr) (opts : List Opt) :
    Except String ErrorOutcome :=
  let ref := rf err
  let cxt := applyOpts opts
  let h : Option Scope := if a.sentry then some (scopeAfter a ref cxt) else none
  let log := logAfter a ref cxt
  match h with
  | some s =>
    match eventFromError sx err Level.error cxt.extra with
    | .error p => .error p
    | .ok ev =>
      .ok { captured := some ev, scope := some s, logFields := log,
            logged := if log.isSome && a.verbose then some err.msg else none }
  | none =>
    .ok { captured := none, scope := none, logFields := log,
          logged := if log.isSome && a.verbose then some err.msg else none }

/-- Embedding of `Alerter.Errorf` (`v1/alert.go`): format an error with
`fmt.Errorf` (external, modelled by `mk`) and forward it with no
options. -/
def alerterErrorf (a : Alerter) (sx : GoErr → Option Stacktrace)
    (rf : GoErr → String) (mk : String → List Val → GoErr)
    (f : String) (args : List Val) : Except String ErrorOutcome :=
  alerterError a sx rf (mk f args) []

/-- The panics `Init` can raise: `ErrReinitialized`, or the error
returned by `New`. -/
inductive InitPanic where
  | reinitialized : InitPanic
  | newFailed : String → InitPanic
deriving DecidableEq

/-- Embedding of `Init` (`v1/alert.go`) as a transition on the guarded
package-level state `shared : Option Alerter`.  The first component is
the panic raised, if any; the second is the state of `shared` when the
call ends (Go assigns `shared, err = New(conf)` before checking `err`,
so on that — unreachable — panic path `shared` would already be set). -/
def Init (conf : Config) (shared : Option Alerter) :
    Option InitPanic × Option Alerter :=
  match shared with
  | some a => (some InitPanic.reinitialized, some a)
  | none =>
    match New conf with
    | (a, some e) => (some (InitPanic.newFailed e), a)
    | (a, none) => (none, a)

/-- Embedding of `Default` (`v1/alert.go`). -/
def Default (shared : Option Alerter) : Option Alerter :=
  shared

/-- Embedding of the package-level `Error` (`v1/alert.go`): under the
lock, forward to the shared Alerter when one is set, else do nothing.
The first component is the forwarded call's outcome (`none` when no call
was made), the second the package-level state when the call ends. -/
def pkgError (shared : Option Alerter) (sx : GoErr → Option Stacktrace)
    (rf : GoErr → String) (err : GoErr) (opts : List Opt) :
    Option (Except String ErrorOutcome) × Option Alerter :=
  match shared with
  | none => (none, none)
  | some a => (some (alerterError a sx rf err opts), some a)

/-- Embedding of the package-level `Errorf` (`v1/alert.go`). -/
def pkgErrorf (shared : Option Alerter) (sx : GoErr → Option Stacktrace)
    (rf : GoErr → String) (mk : String → List Val → GoErr)
    (f : String) (args : List Val) :
    Option (Except String ErrorOutcome) × Option Alerter :=
  match shared with
  | none => (none, none)
  | some a => (some (alerterErrorf a sx rf mk f args), some a)

/-- The error chain starting at an error, following the same advancement
the loop's trailing `switch` performs (`Unwrap` preferred over `Cause`). -/
def chainList : GoErr → List GoErr
  | .mk m t ti fr (.toErr u) c => .mk m t ti fr (.toErr u) c :: chainList u
  | .mk m t ti fr .toNil c => [.mk m t ti fr .toNil c]
  | .mk m t ti fr .absent (.toErr cu) => .mk m t ti fr .absent (.toErr cu) :: chainList cu
  | .mk m t ti fr .absent .toNil => [.mk m t ti fr .absent .toNil]
  | .mk m t ti fr .absent .absent => [.mk m t ti fr .absent .absent]

/-- The depth of an error chain: the number of errors reachable along
`Unwrap`/`Cause` links, the error itself included. -/
def chainDepth (e : GoErr) : Nat :=
  (chainList e).length

/-- The stacktrace one unwinder step derives for an error: its converted
own frames when it exposes `Frames()`, otherwise whatever the backend's
generic extraction `sx` yields. -/
def stackFor (sx : GoErr → Option Stacktrace) (e : GoErr) : Option Stacktrace :=
  match e.framesF with
  | some fs => some (convertStacktrace fs)
  | none => sx e

/-- The exception description of one error at its own level: its message,
its concrete type name and its own stack. -/
def describe (sx : GoErr → Option Stacktrace) (e : GoErr) : Exception :=
  { value := e.msg, typ := e.typeName, stacktrace := stackFor sx e }

/-- Whether an `Unwrap`/`Cause` probe result means the capability is
implemented at all. -/
def hasLink : ErrLink → Bool
  | .absent => false
  | .toNil => true
  | .toErr _ => true

/-- Whether an error exposes both the frame-list capability and
`Unwrap() error` — the combination on which `extractStacktrace` advances
the chain by itself. -/
def framesAndUnwrap (e : GoErr) : Bool :=
  e.framesF.isSome && hasLink e.unwrapF

/-- The descriptions appended by the unwinding loop, one per iteration,
in iteration order: each iteration describes the error returned by
`extractStacktrace` (its message and concrete type name) paired with the
stack extracted in that iteration. -/
def iterDescriptions (sx : GoErr → Option Stacktrace) :
    Nat → Option GoErr → List Exception
  | 0, _ => []
  | Nat.succ _, none => []
  | Nat.succ n, some e =>
    match extractStacktrace sx e with
    | (none, _) => []
    | (some e2, stack) =>
      { value := e2.msg, typ := e2.typeName, stacktrace := stack } ::
        iterDescriptions sx n (nextErr e2)

/-- Lookup of a tag on the final per-call scope of an `Error` outcome. -/
def outScopeGet (o : ErrorOutcome) (k : String) : Option String :=
  match o.scope with
  | some s => scopeGet s.tags k
  | none => none

/-- The three kinds of context mutators the package provides, with their
payloads. -/
inductive OptKind where
  | withRequest : Request → OptKind
  | withTags : List (String × Val) → OptKind
  | withExtra : List (String × Val) → OptKind

/-- Interpretation of a mutator kind as the corresponding functional
option from `v1/option.go`. -/
def OptKind.interp : OptKind → Opt
  | .withRequest r => WithRequest r
  | .withTags t => WithTags t
  | .withExtra x => WithExtra x

/-- The last request payload in a mutator sequence, if any, starting from
a default. -/
def lastReq (d : Option Request) (ks : List OptKind) : Option Request :=
  ks.foldl (fun a k => match k with | .withRequest r => some r | _ => a) d

/-- The last tag-set payload in a mutator sequence, starting from a
default. -/
def lastTags (d : List (String × Val)) (ks : List OptKind) : List (String × Val) :=
  ks.foldl (fun a k => match k with | .withTags t => t | _ => a) d

/-- The last extra-map payload in a mutator sequence, starting from a
default. -/
def lastExtra (d : List (String × Val)) (ks : List OptKind) : List (String × Val) :=
  ks.foldl (fun a k => match k with | .withExtra x => x | _ => a) d

/-- A generic-extraction stand-in that never finds a stack, used to
instantiate the external `sentry.ExtractStacktrace` parameter in
witnesses and counterexamples. -/
def noStack : GoErr → Option Stacktrace :=
  fun _ => none

/-- A reference-string stand-in that derives no fingerprint. -/
def noRef : GoErr → String :=
  fun _ => ""

/-- Concrete cause error for the depth-two chain used as a witness. -/
def cw1errB : GoErr := .mk "b" "TB" none none .absent .absent

/-- Concrete outer error of a depth-two chain without frame capability. -/
def cw1errA : GoErr := .mk "a" "TA" none none (.toErr cw1errB) .absent

/-- Concrete cause error for the frame-capable counterexample chain. -/
def cx1errB : GoErr := .mk "b" "TB" none none .absent .absent

/-- Concrete outer error that exposes both `Frames()` (an empty frame
list) and `Unwrap()` returning its cause. -/
def cx1errA : GoErr := .mk "a" "TA" none (some []) (.toErr cx1errB) .absent

/-- Concrete cause error for the second depth-two witness chain. -/
def cw2errB : GoErr := .mk "b" "TB" none none .absent .absent

/-- Concrete outer error of the second depth-two witness chain. -/
def cw2errA : GoErr := .mk "a" "TA" none none (.toErr cw2errB) .absent

/-- The event the builder produces for `cw2errA` with no extra data. -/
def cw2event : Event :=
  { level := .error, message := "", extra := [],
    exception := [{ value := "b", typ := "TB", stacktrace := none },
                  { value := "a", typ := "TA", stacktrace := none }] }

/-- Concrete cause error for the second frame-capable counterexample. -/
def cx2errB : GoErr := .mk "b" "TB" none none .absent .absent

/-- Concrete outer error of the second frame-capable counterexample. -/
def cx2errA : GoErr := .mk "a" "TA" none (some []) (.toErr cx2errB) .absent

/-- An error exposing `Frames()` together with an `Unwrap()` that
returns nil — the shape on which the unwinding loop dereferences a nil
error interface. -/
def cx3err : GoErr := .mk "boom" "TE" none (some []) .toNil .absent

/-- An alerter with a sentry sink configured and nothing else. -/
def cx3alerter : Alerter :=
  { sentry := true, log := none, channel := "", component := "",
    hostname := "", verbose := false }

/-- First concrete source frame for the conversion witness. -/
def cw4frame1 : Frame := { line := 10, file := "a.go", path := "/src/a.go", name := "fnA" }

/-- Second concrete source frame for the conversion witness. -/
def cw4frame2 : Frame := { line := 20, file := "b.go", path := "/src/b.go", name := "fnB" }

/-- An error exposing a two-frame `Frames()` capability and no
`Unwrap`/`Cause`. -/
def cw4err : GoErr := .mk "m" "T" none (some [cw4frame1, cw4frame2]) .absent .absent

/-- A concrete configuration for the registry witnesses. -/
def cw5conf : Config :=
  { sentry := false, logger := none, channel := "", component := "",
    hostname := "", verbose := false }

/-- A concrete installed alerter for the registry witnesses. -/
def cw5alerter : Alerter :=
  { sentry := false, log := none, channel := "", component := "",
    hostname := "", verbose := false }

/-- An alerter with only a sentry sink, for the tag-propagation claim. -/
def cw7alerter : Alerter :=
  { sentry := true, log := none, channel := "", component := "",
    hostname := "", verbose := false }

/-- A plain error with no capabilities, for the tag-propagation claim. -/
def cw7err : GoErr := .mk "boom" "TE" none none .absent .absent

/-- A reference-string stand-in with a fixed non-empty fingerprint. -/
def cw7ref : GoErr → String :=
  fun _ => "r1"

/-- A mutator sequence attaching the spec's example tag map. -/
def cw7opts : List Opt :=
  [WithTags [("env", Val.vstr "prod"), ("n", Val.vint 3)]]

/-- The outcome of reporting `cw7err` on `cw7alerter` with `cw7opts`. -/
def cw7outcome : ErrorOutcome where
  captured := some { level := .error, message := "", extra := [], exception := [{ value := "boom", typ := "TE", stacktrace := none }] }
  scope := some { tags := [("env", "prod"), ("n", "3"), ("ref", "r1")], request := none, user := none }
  logFields := none
  logged := none

/-- A reference-string stand-in with fingerprint distinct from the tag
value used in the `ref`-collision counterexample. -/
def cx7ref : GoErr → String :=
  fun _ => "abc"

/-- An error exposing a `Title()` capability. -/
def cw9err : GoErr := .mk "m" "T" (some "ttl") none .absent .absent

/-- The event the builder produces for `cw9err` with no extra data. -/
def cw9event : Event :=
  { level := .error, message := "ttl", extra := [],
    exception := [{ value := "m", typ := "T", stacktrace := none }] }

/-- A fully populated configuration for the constructor claim. -/
def cw10conf : Config :=
  { sentry := true, logger := some [], channel := "c", component := "svc",
    hostname := "h1", verbose := true }

/-- An alerter standing for an already-installed default. -/
def cw10alerter : Alerter :=
  { sentry := false, log := none, channel := "", component := "",
    hostname := "", verbose := false }

/-- Claim C5: once the process-wide default Alerter is set, a second call
to `Init` panics with `ErrReinitialized` (it never returns normally) and
the installed default is not replaced. -/
theorem init_twice_panics (conf : Config) (st : Option Alerter) (a : Alerter)
    (h : st = some a) :
    Init conf st = (some InitPanic.reinitialized, some a) := by
  subst h
  rfl

/-- Witness for claim C5 at a concrete configuration and installed
alerter. -/
theorem init_twice_panics_witness :
    Init cw5conf (some cw5alerter) = (some InitPanic.reinitialized, some cw5alerter) :=
  init_twice_panics cw5conf (some cw5alerter) cw5alerter rfl

/-- Claim C6: before any `Init`, the package-level `Error` and `Errorf`
forwarders make no sink call, do not fail and leave the package state
untouched, and `Default` returns nil. -/
theorem pkg_noop_before_init (sx : GoErr → Option Stacktrace)
    (rf : GoErr → String) (mk : String → List Val → GoErr) (err : GoErr)
    (opts : List Opt) (f : String) (args : List Val) :
    pkgError none sx rf err opts = (none, none) ∧
    pkgErrorf none sx rf mk f args = (none, none) ∧
    Default none = (none : Option Alerter) :=
  ⟨rfl, rfl, rfl⟩

/-- Claim C10: `New` returns an alerter and a nil error for every
configuration, so the construction-failure panic branch of `Init` is
unreachable: whenever `Init` panics, it is because a default alerter was
already installed. -/
theorem new_never_fails (conf : Config) (st : Option Alerter) :
    (New conf).2 = none ∧ (New conf).1.isSome = true ∧
    ((Init conf st).1.isSome = true →
      st.isSome = true ∧ (Init conf st).1 = some InitPanic.reinitialized) := by
  refine ⟨rfl, rfl, ?_⟩
  cases st with
  | none =>
    intro h
    exact absurd h (by simp [Init, New])
  | some a =>
    intro _
    exact ⟨rfl, rfl⟩

/-- Witness for claim C10 at a fully populated configuration and an
already-installed default. -/
theorem new_never_fails_witness :
    (New cw10conf).2 = none ∧
    (Init cw10conf (some cw10alerter)).1 = some InitPanic.reinitialized := by
  have h := new_never_fails cw10conf (some cw10alerter)
  exact ⟨h.1, (h.2.2 (by decide)).2⟩

/-- Claim C3 (code bug): `Alerter.Error` is not panic-free for every
non-nil error chain.  At an error exposing `Frames()` together with an
`Unwrap()` returning nil, `extractStacktrace` advances to the nil unwrap
result and the unwinding loop then calls `Error()` on a nil error
interface, a run-time panic that propagates to the caller. -/
theorem error_panics_on_nil_unwrap :
    alerterError cx3alerter noStack noRef cx3err [] =
      .error "runtime error: invalid memory address or nil pointer dereference" :=
  rfl

/-- Claim C9: whenever the event builder completes, the produced event
has severity fixed at the error level, the supplied extra map attached
unchanged as payload, and a title equal to the error's `Title()` result
exactly when the capability is exposed, unset (the empty Go string)
otherwise. -/
theorem event_fields_ok (sx : GoErr → Option Stacktrace) (err : GoErr)
    (extra : List (String × Val)) (ev : Event)
    (hok : captureError sx err extra = .ok ev) :
    ev.level = Level.error ∧ ev.extra = extra ∧
    ev.message = (match err.titleF with | some t => t | none => "") := by
  cases h : unwindLoop sx maxErrorDepth (some err) [] with
  | error p =>
    simp [captureError, eventFromError, h] at hok
  | ok l =>
    simp [captureError, eventFromError, h] at hok
    subst hok
    exact ⟨rfl, rfl, rfl⟩

/-- Witness for claim C9 at an error exposing a title capability. -/
theorem event_fields_ok_witness :
    cw9event.level = Level.error ∧ cw9event.extra = [] ∧
    cw9event.message = (match cw9err.titleF with | some t => t | none => "") :=
  event_fields_ok noStack cw9err [] cw9event (by rfl)

/-- Claim C4: when the error exposes the frame-list capability, one
unwinder step produces the converted frame batch — the i-th converted
frame copies line number, filename, absolute path and function name from
the (n-1-i)-th of the n source frames — and the remaining error is the
`Unwrap()` result when that capability is exposed (nil included) and the
same error unchanged when it is not. -/
theorem frames_step_ok (sx : GoErr → Option Stacktrace) (e : GoErr)
    (fs : List Frame) (i : Nat) (hf : e.framesF = some fs) (hi : i < fs.length) :
    (extractStacktrace sx e).2 = some (convertStacktrace fs) ∧
    (convertStacktrace fs).frames.length = fs.length ∧
    (convertStacktrace fs).frames[i]? =
      (fs[fs.length - 1 - i]?).map (fun f =>
        { lineno := f.line, filename := f.file, absPath := f.path,
          function := f.name }) ∧
    (∀ u, e.unwrapF = ErrLink.toErr u → (extractStacktrace sx e).1 = some u) ∧
    (e.unwrapF = ErrLink.toNil → (extractStacktrace sx e).1 = none) ∧
    (e.unwrapF = ErrLink.absent → (extractStacktrace sx e).1 = some e) := by
  have hex : extractStacktrace sx e = (maybeUnwrap e, some (convertStacktrace fs)) := by
    unfold extractStacktrace
    rw [hf]
  refine ⟨by rw [hex], by simp [convertStacktrace], ?_, ?_, ?_, ?_⟩
  · show ((fs.map _).reverse)[i]? = _
    rw [List.getElem?_reverse (by simpa using hi), List.getElem?_map]
    simp
  · intro u hu
    rw [hex]
    simp [maybeUnwrap, hu]
  · intro hu
    rw [hex]
    simp [maybeUnwrap, hu]
  · intro hu
    rw [hex]
    simp [maybeUnwrap, hu]

/-- Witness for claim C4 at a two-frame error and index zero. -/
theorem frames_step_ok_witness :
    (extractStacktrace noStack cw4err).2 = some (convertStacktrace [cw4frame1, cw4frame2]) ∧
    (convertStacktrace [cw4frame1, cw4frame2]).frames[0]? =
      some { lineno := 20, filename := "b.go", absPath := "/src/b.go", function := "fnB" } ∧
    (extractStacktrace noStack cw4err).1 = some cw4err := by
  have h := frames_step_ok noStack cw4err [cw4frame1, cw4frame2] 0 rfl (by decide)
  refine ⟨h.1, ?_, h.2.2.2.2.2 rfl⟩
  rw [h.2.2.1]
  rfl

/-- Folding interpreted mutators from any starting context updates each
of the three fields independently, last occurrence winning. -/
theorem foldOpts_fields (ks : List OptKind) : ∀ c : Context,
    (ks.map OptKind.interp).foldl (fun c o => o c) c =
      { request := lastReq c.request ks, tags := lastTags c.tags ks,
        extra := lastExtra c.extra ks } := by
  induction ks with
  | nil =>
    intro c
    rfl
  | cons k ks ih =>
    intro c
    cases k <;>
      simp only [List.map_cons, List.foldl_cons, OptKind.interp,
        WithRequest, WithTags, WithExtra] <;>
      rw [ih] <;> rfl

/-- Claim C8: the per-call context is the left-to-right fold of the
supplied mutators over a zero-valued context, and each of the three
provided mutators overwrites only its own field, so the last-applied
payload of each kind wins. -/
theorem context_fold_last_wins (ks : List OptKind) :
    applyOpts (ks.map OptKind.interp) =
      { request := lastReq none ks, tags := lastTags [] ks,
        extra := lastExtra [] ks } :=
  foldOpts_fields ks {}

/-- An accumulator-passing run of the unwinding loop that ends normally
produces the accumulator followed by the per-iteration descriptions. -/
theorem unwindLoop_ok_eq (sx : GoErr → Option Stacktrace) :
    ∀ (n : Nat) (err : Option GoErr) (acc l : List Exception),
      unwindLoop sx n err acc = .ok l → l = acc ++ iterDescriptions sx n err := by
  intro n
  induction n with
  | zero =>
    intro err acc l h
    simp [unwindLoop] at h
    simp [iterDescriptions, h]
  | succ n ih =>
    intro err acc l h
    cases err with
    | none =>
      simp [unwindLoop] at h
      simp [iterDescriptions, h]
    | some e =>
      rcases hx : extractStacktrace sx e with ⟨oe, st⟩
      cases oe with
      | none =>
        simp only [unwindLoop, hx] at h
        exact Except.noConfusion h
      | some e2 =>
        simp only [unwindLoop, hx] at h
        rw [ih (nextErr e2) _ l h]
        simp [iterDescriptions, hx]

/-- Claim C2 (amended): each loop iteration appends one exception whose
stacktrace is the one extracted in that iteration but whose message and
type are those of the error `extractStacktrace` returns — the current
error itself unless it exposes both the frame-list capability and
`Unwrap`, in which case its unwrapped cause — and the finished event's
exception list is the per-iteration descriptions reversed exactly
once. -/
theorem exceptions_are_reversed_descriptions (sx : GoErr → Option Stacktrace)
    (err : GoErr) (lvl : Level) (extra : List (String × Val)) (ev : Event)
    (hok : eventFromError sx err lvl extra = .ok ev) :
    ev.exception = (iterDescriptions sx maxErrorDepth (some err)).reverse := by
  cases h : unwindLoop sx maxErrorDepth (some err) [] with
  | error p =>
    simp [eventFromError, h] at hok
  | ok l =>
    simp [eventFromError, h] at hok
    subst hok
    have h2 := unwindLoop_ok_eq sx maxErrorDepth (some err) [] l h
    simp at h2
    rw [h2]

/-- Witness for claim C2 at a plain depth-two chain. -/
theorem exceptions_are_reversed_descriptions_witness :
    cw2event.exception = (iterDescriptions noStack maxErrorDepth (some cw2errA)).reverse :=
  exceptions_are_reversed_descriptions noStack cw2errA Level.error [] cw2event (by rfl)

/-- Claim C2 counterexample: at `cx2errA` (message "a", type "TA",
exposing frames and an unwrap to `cx2errB`), the only loop iteration
appends an exception describing the unwrapped cause (message "b", type
"TB"), not the error at the current unwinding level. -/
theorem exceptions_describe_unwrapped_counterexample :
    (eventFromError noStack cx2errA Level.error []).map
        (fun ev => ev.exception.map (fun x => (x.value, x.typ))) =
      .ok [("b", "TB")] ∧
    cx2errA.msg = "a" ∧ cx2errA.typeName = "TA" :=
  ⟨rfl, rfl, rfl⟩

/-- Every error heads its own chain. -/
theorem self_mem_chainList (e : GoErr) : e ∈ chainList e := by
  cases e with
  | mk m t ti fr u c =>
    cases u with
    | toErr u2 => simp [chainList]
    | toNil => simp [chainList]
    | absent => cases c <;> simp [chainList]

/-- A chain whose head has no successor is the singleton of its head. -/
theorem chainList_of_nextErr_none (e : GoErr) (h : nextErr e = none) :
    chainList e = [e] := by
  cases e with
  | mk m t ti fr u c =>
    cases u with
    | toErr u2 => simp [nextErr, GoErr.unwrapF] at h
    | toNil => simp [chainList]
    | absent =>
      cases c with
      | toErr c2 => simp [nextErr, GoErr.unwrapF, GoErr.causeF] at h
      | toNil => simp [chainList]
      | absent => simp [chainList]

/-- A chain whose head has a successor is the head consed onto the
successor's chain. -/
theorem chainList_of_nextErr_some (e e2 : GoErr) (h : nextErr e = some e2) :
    chainList e = e :: chainList e2 := by
  cases e with
  | mk m t ti fr u c =>
    cases u with
    | toErr u2 =>
      simp [nextErr, GoErr.unwrapF] at h
      subst h
      simp [chainList]
    | toNil => simp [nextErr, GoErr.unwrapF] at h
    | absent =>
      cases c with
      | toErr c2 =>
        simp [nextErr, GoErr.unwrapF, GoErr.causeF] at h
        subst h
        simp [chainList]
      | toNil => simp [nextErr, GoErr.unwrapF, GoErr.causeF] at h
      | absent => simp [nextErr, GoErr.unwrapF, GoErr.causeF] at h

/-- On an error that does not expose frames and unwrap together, one
unwinder step keeps the error and yields its own stack. -/
theorem extract_of_no_clash (sx : GoErr → Option Stacktrace) (e : GoErr)
    (h : framesAndUnwrap e = false) :
    extractStacktrace sx e = (some e, stackFor sx e) := by
  unfold extractStacktrace stackFor
  cases hf : e.framesF with
  | none => rfl
  | some fs =>
    unfold framesAndUnwrap at h
    rw [hf] at h
    simp at h
    unfold maybeUnwrap
    cases hu : e.unwrapF with
    | absent => rfl
    | toNil => rw [hu] at h; simp [hasLink] at h
    | toErr u => rw [hu] at h; simp [hasLink] at h

/-- With no fuel or no error left the loop returns the accumulator. -/
theorem unwindLoop_none (sx : GoErr → Option Stacktrace) (n : Nat)
    (acc : List Exception) : unwindLoop sx n none acc = .ok acc := by
  cases n <;> rfl

/-- Taking one element of a chain gives its head. -/
theorem take_one_chainList (e : GoErr) : (chainList e).take 1 = [e] := by
  cases hn : nextErr e with
  | none => rw [chainList_of_nextErr_none e hn]; rfl
  | some e2 => rw [chainList_of_nextErr_some e e2 hn]; rfl

/-- On a chain in which no error exposes frames and unwrap together, the
loop appends one canonical description per chain error, in chain order,
up to the fuel bound. -/
theorem unwindLoop_no_clash (sx : GoErr → Option Stacktrace) :
    ∀ (n : Nat) (e : GoErr) (acc : List Exception),
      (∀ x ∈ chainList e, framesAndUnwrap x = false) →
      unwindLoop sx (n + 1) (some e) acc =
        .ok (acc ++ ((chainList e).take (n + 1)).map (describe sx)) := by
  intro n
  induction n with
  | zero =>
    intro e acc hb
    have hx := extract_of_no_clash sx e (hb e (self_mem_chainList e))
    simp only [unwindLoop, hx]
    rw [take_one_chainList]
    rfl
  | succ n ih =>
    intro e acc hb
    have hx := extract_of_no_clash sx e (hb e (self_mem_chainList e))
    simp only [unwindLoop, hx]
    cases hn : nextErr e with
    | none =>
      rw [unwindLoop_none, chainList_of_nextErr_none e hn]
      simp [describe]
    | some e2 =>
      have hb2 : ∀ x ∈ chainList e2, framesAndUnwrap x = false := by
        intro x hxm
        refine hb x ?_
        rw [chainList_of_nextErr_some e e2 hn]
        exact List.mem_cons_of_mem _ hxm
      rw [ih e2 _ hb2, chainList_of_nextErr_some e e2 hn]
      simp [describe]

/-- Claim C1 (amended): provided no error in the chain exposes both the
frame-list capability and `Unwrap`, the finished event's exception list
is one canonical description per chain error, outermost-error-last, with
exactly `min depth maxErrorDepth` entries. -/
theorem exception_count_matches_depth (sx : GoErr → Option Stacktrace)
    (err : GoErr) (lvl : Level) (extra : List (String × Val))
    (hb : ∀ x ∈ chainList err, framesAndUnwrap x = false) :
    eventFromError sx err lvl extra =
      .ok { level := lvl,
            message := match err.titleF with | some t => t | none => "",
            extra := extra,
            exception := (((chainList err).take maxErrorDepth).map (describe sx)).reverse } ∧
    (((chainList err).take maxErrorDepth).map (describe sx)).reverse.length =
      min (chainDepth err) maxErrorDepth := by
  constructor
  · unfold eventFromError
    rw [show maxErrorDepth = 2 + 1 from rfl, unwindLoop_no_clash sx 2 err [] hb]
    simp
  · simp [chainDepth, List.length_take, Nat.min_comm]

/-- Witness for claim C1 at a plain depth-two chain. -/
theorem exception_count_matches_depth_witness :
    eventFromError noStack cw1errA Level.error [] =
      .ok { level := Level.error,
            message := match cw1errA.titleF with | some t => t | none => "",
            extra := [],
            exception := (((chainList cw1errA).take maxErrorDepth).map (describe noStack)).reverse } ∧
    (((chainList cw1errA).take maxErrorDepth).map (describe noStack)).reverse.length =
      min (chainDepth cw1errA) maxErrorDepth :=
  exception_count_matches_depth noStack cw1errA Level.error [] (by decide)

/-- Claim C1 counterexample: the chain from `cx1errA` has depth two,
within the limit, yet the finished event carries a single exception,
because `extractStacktrace` advances past the frame-exposing outer error
and the loop consumes two chain levels in one iteration. -/
theorem exception_count_counterexample :
    chainDepth cx1errA = 2 ∧ 2 ≤ maxErrorDepth ∧
    (eventFromError noStack cx1errA Level.error []).map
        (fun ev => ev.exception.length) = .ok 1 ∧ (1 : Nat) ≠ 2 :=
  ⟨rfl, by decide, rfl, by decide⟩

/-- Setting a scope tag makes it readable. -/
theorem scopeGet_scopeSet_self (l : List (String × String)) (k v : String) :
    scopeGet (scopeSet l k v) k = some v := by
  induction l with
  | nil => simp [scopeSet, scopeGet]
  | cons p r ih =>
    obtain ⟨k2, v2⟩ := p
    by_cases h : k2 = k
    · simp [scopeSet, scopeGet, h]
    · simp [scopeSet, scopeGet, h, ih]

/-- Setting a scope tag leaves other keys unchanged. -/
theorem scopeGet_scopeSet_ne (l : List (String × String)) (k v k2 : String)
    (h : k2 ≠ k) : scopeGet (scopeSet l k v) k2 = scopeGet l k2 := by
  induction l with
  | nil =>
    show (if k = k2 then some v else scopeGet [] k2) = scopeGet [] k2
    rw [if_neg (fun hh => h hh.symm)]
  | cons p r ih =>
    obtain ⟨k3, v3⟩ := p
    show scopeGet (if k3 = k then (k, v) :: r else (k3, v3) :: scopeSet r k v) k2 = _
    by_cases h3 : k3 = k
    · rw [if_pos h3]
      show (if k = k2 then some v else scopeGet r k2) =
        (if k3 = k2 then some v3 else scopeGet r k2)
      rw [if_neg (fun hh => h hh.symm), if_neg (fun hh => h ((Eq.symm hh).trans h3))]
    · rw [if_neg h3]
      show (if k3 = k2 then some v3 else scopeGet (scopeSet r k v) k2) =
        (if k3 = k2 then some v3 else scopeGet r k2)
      by_cases h4 : k3 = k2
      · rw [if_pos h4, if_pos h4]
      · rw [if_neg h4, if_neg h4, ih]

/-- The scope-valued tag fold is the list-valued fold on the tag map. -/
theorem foldTags_tags (ts : List (String × Val)) : ∀ s : Scope,
    (ts.foldl (fun s kv => setTag s kv.1 (sprint kv.2)) s).tags =
      ts.foldl (fun l kv => scopeSet l kv.1 (sprint kv.2)) s.tags := by
  induction ts with
  | nil => intro s; rfl
  | cons kv r ih =>
    intro s
    rw [List.foldl_cons, List.foldl_cons, ih]
    rfl

/-- Folding tag assignments does not touch keys outside the tag map. -/
theorem scopeGet_foldSet_not_mem (ts : List (String × Val)) :
    ∀ (l : List (String × String)) (k : String), k ∉ ts.map Prod.fst →
      scopeGet (ts.foldl (fun l kv => scopeSet l kv.1 (sprint kv.2)) l) k =
        scopeGet l k := by
  induction ts with
  | nil => intro l k _; rfl
  | cons kv r ih =>
    intro l k h
    simp only [List.map_cons, List.mem_cons] at h
    push_neg at h
    rw [List.foldl_cons, ih _ k h.2]
    exact scopeGet_scopeSet_ne l kv.1 (sprint kv.2) k h.1

/-- Folding tag assignments over a map with unique keys makes every
entry readable, stringified. -/
theorem scopeGet_foldSet_mem (ts : List (String × Val)) :
    ∀ (l : List (String × String)) (k : String) (v : Val),
      (ts.map Prod.fst).Nodup → (k, v) ∈ ts →
      scopeGet (ts.foldl (fun l kv => scopeSet l kv.1 (sprint kv.2)) l) k =
        some (sprint v) := by
  induction ts with
  | nil => intro l k v _ hm; cases hm
  | cons kv r ih =>
    intro l k v hnd hm
    simp only [List.map_cons, List.nodup_cons] at hnd
    rw [List.foldl_cons]
    rcases List.mem_cons.mp hm with heq | hr
    · obtain rfl : kv = (k, v) := heq.symm
      rw [scopeGet_foldSet_not_mem r _ k hnd.1]
      exact scopeGet_scopeSet_self l k (sprint v)
    · have hk : k ≠ kv.1 := by
        intro hkk
        exact hnd.1 (hkk ▸ List.mem_map_of_mem Prod.fst hr)
      exact ih _ k v hnd.2 hr

/-- A map-member tag other than `ref` is readable, stringified, on the
scope after the tags branch ran. -/
theorem scopeWithTags_get_mem (ref : String) (ts : List (String × Val))
    (s : Scope) (k : String) (v : Val)
    (hnd : (ts.map Prod.fst).Nodup) (hm : (k, v) ∈ ts) (hk : k ≠ "ref") :
    scopeGet (scopeWithTags ref ts s).tags k = some (sprint v) := by
  unfold scopeWithTags
  by_cases href : ref = ""
  · rw [if_neg (by simpa using href), foldTags_tags]
    exact scopeGet_foldSet_mem ts s.tags k v hnd hm
  · rw [if_pos href]
    show scopeGet (scopeSet _ "ref" ref) k = _
    rw [scopeGet_scopeSet_ne _ _ _ _ hk, foldTags_tags]
    exact scopeGet_foldSet_mem ts s.tags k v hnd hm

/-- After the tags branch ran on a map without a `ref` key, the scope's
`ref` tag is the reference string when non-empty, else whatever the
incoming scope had. -/
theorem scopeWithTags_get_ref (ref : String) (ts : List (String × Val))
    (s : Scope) (h : "ref" ∉ ts.map Prod.fst) :
    scopeGet (scopeWithTags ref ts s).tags "ref" =
      if ref = "" then scopeGet s.tags "ref" else some ref := by
  unfold scopeWithTags
  by_cases href : ref = ""
  · rw [if_neg (by simpa using href), if_pos href, foldTags_tags]
    exact scopeGet_foldSet_not_mem ts s.tags "ref" h
  · rw [if_pos href, if_neg href]
    show scopeGet (scopeSet _ "ref" ref) "ref" = _
    exact scopeGet_scopeSet_self _ "ref" ref

/-- The scope established at construction time never carries a `ref`
tag. -/
theorem hubScope_get_ref (a : Alerter) : scopeGet (hubScope a).tags "ref" = none := by
  have h1 : ("ref" : String) ≠ "component" := by decide
  have h2 : ("ref" : String) ≠ "host" := by decide
  unfold hubScope
  split_ifs with hc hh hh2
  · show scopeGet (scopeSet (scopeSet [] "component" a.component) "host" a.hostname) "ref" = none
    rw [scopeGet_scopeSet_ne _ _ _ _ h2, scopeGet_scopeSet_ne _ _ _ _ h1]
    rfl
  · show scopeGet (scopeSet [] "component" a.component) "ref" = none
    rw [scopeGet_scopeSet_ne _ _ _ _ h1]
    rfl
  · show scopeGet (scopeSet [] "host" a.hostname) "ref" = none
    rw [scopeGet_scopeSet_ne _ _ _ _ h2]
    rfl
  · rfl

/-- The tags branch reads only the incoming scope's tag map. -/
theorem scopeWithTags_tags_congr (ref : String) (ts : List (String × Val))
    (s s2 : Scope) (h : s.tags = s2.tags) :
    (scopeWithTags ref ts s).tags = (scopeWithTags ref ts s2).tags := by
  unfold scopeWithTags
  by_cases href : ref = ""
  · rw [if_neg (by simpa using href), if_neg (by simpa using href),
      foldTags_tags, foldTags_tags, h]
  · rw [if_pos href, if_pos href]
    show scopeSet _ "ref" ref = scopeSet _ "ref" ref
    rw [foldTags_tags, foldTags_tags, h]

/-- With a non-empty tag map, the final per-call scope's tag map is the
one the tags branch produces on the construction-time scope (the request
branch touches only the request and user fields). -/
theorem scopeAfter_tags (a : Alerter) (ref : String) (cxt : Context)
    (hlen : cxt.tags.length > 0) :
    (scopeAfter a ref cxt).tags = (scopeWithTags ref cxt.tags (hubScope a)).tags := by
  unfold scopeAfter
  cases hreq : cxt.request with
  | none =>
    simp only [hreq]
    rw [if_pos hlen]
  | some req =>
    simp only [hreq]
    rw [if_pos hlen]
    exact scopeWithTags_tags_congr ref cxt.tags _ _ rfl

/-- A successful `Alerter.Error` call with a sentry sink reports the
final per-call scope and logger view computed by the branch stages. -/
theorem alerterError_ok_parts (a : Alerter) (sx : GoErr → Option Stacktrace)
    (rf : GoErr → String) (err : GoErr) (opts : List Opt) (o : ErrorOutcome)
    (hs : a.sentry = true)
    (hok : alerterError a sx rf err opts = .ok o) :
    o.scope = some (scopeAfter a (rf err) (applyOpts opts)) ∧
    o.logFields = logAfter a (rf err) (applyOpts opts) := by
  unfold alerterError at hok
  rw [hs] at hok
  simp only [if_pos] at hok
  cases hev : eventFromError sx err Level.error (applyOpts opts).extra with
  | error p =>
    rw [hev] at hok
    exact Except.noConfusion hok
  | ok ev =>
    rw [hev] at hok
    cases hok
    exact ⟨rfl, rfl⟩

/-- With a non-empty tag map, a logger view that exists after all stages
contains every tag as a field. -/
theorem mem_of_logAfter (a : Alerter) (ref : String) (cxt : Context)
    (l : List (String × Val)) (kv : String × Val)
    (hlen : cxt.tags.length > 0)
    (hl : logAfter a ref cxt = some l) (hkv : kv ∈ cxt.tags) : kv ∈ l := by
  unfold logAfter logWithExtra logWithTags at hl
  cases hr : logWithRequest cxt (logStart a ref) with
  | none =>
    rw [hr, if_pos hlen] at hl
    by_cases hex : cxt.extra.length > 0
    · rw [if_pos hex] at hl
      simp at hl
    · rw [if_neg hex] at hl
      simp at hl
  | some l1 =>
    rw [hr, if_pos hlen] at hl
    by_cases hex : cxt.extra.length > 0
    · rw [if_pos hex] at hl
      simp only [Option.map_some'] at hl
      cases hl
      simp [hkv]
    · rw [if_neg hex] at hl
      simp only [Option.map_some'] at hl
      cases hl
      simp [hkv]

/-- Claim C7 (amended): with a sentry sink configured and a non-empty
composed tag map that does not itself contain the key `ref`, the final
per-call tracker scope maps every tag key to its stringified value and
carries a `ref` tag equal to the error's reference string exactly when
that string is non-empty; and when the per-call logger view exists it
contains every tag with its original value. -/
theorem scope_gets_tags_and_ref (a : Alerter) (sx : GoErr → Option Stacktrace)
    (rf : GoErr → String) (err : GoErr) (opts : List Opt) (o : ErrorOutcome)
    (hs : a.sentry = true)
    (hne : (applyOpts opts).tags ≠ [])
    (hnd : ((applyOpts opts).tags.map Prod.fst).Nodup)
    (href : "ref" ∉ (applyOpts opts).tags.map Prod.fst)
    (hok : alerterError a sx rf err opts = .ok o) :
    (∀ kv ∈ (applyOpts opts).tags, outScopeGet o kv.1 = some (sprint kv.2)) ∧
    outScopeGet o "ref" = (if rf err = "" then none else some (rf err)) ∧
    (∀ l, o.logFields = some l → ∀ kv ∈ (applyOpts opts).tags, kv ∈ l) := by
  obtain ⟨hsc, hlf⟩ := alerterError_ok_parts a sx rf err opts o hs hok
  have hlen : (applyOpts opts).tags.length > 0 := List.length_pos.mpr hne
  have htags := scopeAfter_tags a (rf err) (applyOpts opts) hlen
  refine ⟨?_, ?_, ?_⟩
  · intro kv hkv
    obtain ⟨k, v⟩ := kv
    have hk : k ≠ "ref" := by
      intro hkk
      exact href (hkk ▸ List.mem_map_of_mem Prod.fst hkv)
    unfold outScopeGet
    rw [hsc]
    show scopeGet (scopeAfter a (rf err) (applyOpts opts)).tags k = _
    rw [htags]
    exact scopeWithTags_get_mem (rf err) _ _ k v hnd hkv hk
  · unfold outScopeGet
    rw [hsc]
    show scopeGet (scopeAfter a (rf err) (applyOpts opts)).tags "ref" = _
    rw [htags, scopeWithTags_get_ref (rf err) _ _ href, hubScope_get_ref]
  · intro l hl kv hkv
    rw [hlf] at hl
    exact mem_of_logAfter a (rf err) (applyOpts opts) l kv hlen hl hkv

/-- Witness for claim C7 at the spec's example tag map and a non-empty
reference string. -/
theorem scope_gets_tags_and_ref_witness :
    outScopeGet cw7outcome "env" = some "prod" ∧
    outScopeGet cw7outcome "n" = some "3" ∧
    outScopeGet cw7outcome "ref" = some "r1" := by
  have h := scope_gets_tags_and_ref cw7alerter noStack cw7ref cw7err cw7opts
    cw7outcome rfl (by decide) (by decide) (by decide) (by rfl)
  refine ⟨h.1 ("env", Val.vstr "prod") (by decide),
    h.1 ("n", Val.vint 3) (by decide), ?_⟩
  have h2 := h.2.1
  rw [show cw7ref cw7err = "r1" from rfl, if_neg (by decide)] at h2
  exact h2

/-- Claim C7 counterexample: when the tag map itself contains the key
`ref` and the reference string is non-empty, the scope does not map that
tag to its stringified value — the reference string, written after the
tag loop, wins. -/
theorem ref_tag_overwrite_counterexample :
    (alerterError cw7alerter noStack cx7ref cw7err
        [WithTags [("ref", Val.vstr "x")]]).map (fun o => outScopeGet o "ref") =
      .ok (some "abc") ∧
    sprint (Val.vstr "x") = "x" ∧ (some "abc" : Option String) ≠ some "x" :=
  ⟨rfl, rfl, by decide⟩

end GoAlert
